import Mathlib

/-!
Verification of the tabular time-series normalization engine of this repository
(`bank_fx_data.py` and `data_utils.py`).

The pandas data frames are embedded shallowly:

* a monthly series is a list of observations, ordered as the raw columns are;
* a canonical month (month-end timestamp produced by `_to_month_end`) is an
  integer key `month_key y m = 12 * y + (m - 1)`; an unparseable label (`NaT`)
  is `none`;
* a numeric cell is `Option ℚ` (`none` is pandas `NaN` after
  `to_numeric(errors="coerce")`); where IEEE infinities are observable
  (`pct_change`), values live in the four-constructor type `PdFloat`;
* data frames are lists of typed row structures; sorting models
  `sort_values` / `sort_index` via a key into a linear order.

Strings are ordered by their list of character codes (`strCode`), which agrees
with the code-point comparison Python uses for `str`.
-/

/-! ## Generic list machinery (sorting by key) -/

instance decRelKeyLe {α K : Type} [LinearOrder K] (f : α → K) :
    DecidableRel fun a b : α => f a ≤ f b :=
  fun a b => inferInstanceAs (Decidable (f a ≤ f b))

instance isTotalKeyLe {α K : Type} [LinearOrder K] (f : α → K) :
    IsTotal α fun a b : α => f a ≤ f b :=
  ⟨fun a b => le_total (f a) (f b)⟩

instance isTransKeyLe {α K : Type} [LinearOrder K] (f : α → K) :
    IsTrans α fun a b : α => f a ≤ f b :=
  ⟨fun _ _ _ h1 h2 => le_trans h1 h2⟩

/-- Sort a list ascending by a key into a linear order.  This models pandas
`sort_index` / `sort_values` (which compare index labels resp. column tuples). -/
def sortByKey {α K : Type} [LinearOrder K] (f : α → K) (l : List α) : List α :=
  l.insertionSort fun a b => f a ≤ f b

instance instDecidableEqExcept {ε α : Type} [DecidableEq ε] [DecidableEq α] :
    DecidableEq (Except ε α) := fun a b =>
  match a, b with
  | .error e1, .error e2 =>
    match decEq e1 e2 with
    | isTrue h => isTrue (h ▸ rfl)
    | isFalse h => isFalse fun hc => h (Except.error.inj hc)
  | .ok a1, .ok a2 =>
    match decEq a1 a2 with
    | isTrue h => isTrue (h ▸ rfl)
    | isFalse h => isFalse fun hc => h (Except.ok.inj hc)
  | .error _, .ok _ => isFalse fun hc => Except.noConfusion hc
  | .ok _, .error _ => isFalse fun hc => Except.noConfusion hc

/-- Character-code list of a string: the key under which Python compares
`str` values (code-point lexicographic order). -/
def strCode (s : String) : List ℕ :=
  s.data.map fun c => c.val.toNat

/-- Canonical key of the month-end timestamp of month `m` of year `y`
(the image of a raw column label under `_to_month_end`). -/
def month_key (y m : ℤ) : ℤ := 12 * y + (m - 1)

/-! ## `_normalize_series` (bank_fx_data.py lines 71-81)

`_normalize_series` does: `to_numeric(errors="coerce")`, index to month-end,
`dropna()`, `groupby(index).last()`, `sort_index()`.  An input observation is a
pair (canonical month of the raw column label, parsed value); `groupby` drops
`NaT` keys and `dropna` drops `NaN` values, so only fully parsed pairs
survive (`clean_pairs`); `groupby(...).last()` keeps, per month, the value of
the last surviving observation in original column order (`last_val`). -/

def clean_pairs (s : List (Option ℤ × Option ℚ)) : List (ℤ × ℚ) :=
  s.filterMap fun p =>
    match p with
    | (some m, some q) => some (m, q)
    | _ => none

def last_val (l : List (ℤ × ℚ)) (m : ℤ) : Option ℚ :=
  ((l.filter fun p => p.1 = m).map Prod.snd).getLast?

def months_of (l : List (ℤ × ℚ)) : List ℤ := (l.map Prod.fst).dedup

def dedup_last_sorted (l : List (ℤ × ℚ)) : List (ℤ × ℚ) :=
  (sortByKey (fun m : ℤ => m) (months_of l)).filterMap fun m =>
    (last_val l m).map fun q => (m, q)

def normalize_series (s : List (Option ℤ × Option ℚ)) : List (ℤ × ℚ) :=
  dedup_last_sorted (clean_pairs s)

/-! ## pandas `pct_change(12)` (`_pct_yoy_12`, bank_fx_data.py line 86, and
`groupby("地区")[col].pct_change(12)`, data_utils.py line 295)

pandas computes `filled = s.fillna(method="pad")` (the default `fill_method`)
and then `filled / filled.shift(12) - 1`.  Division follows IEEE float rules:
`c / 0` is `±inf` for `c ≠ 0` and `NaN` for `c = 0`; `NaN` propagates.  The
four-constructor type `PdFloat` records exactly this. -/

inductive PdFloat where
  | nan : PdFloat
  | inf : PdFloat
  | neginf : PdFloat
  | num : ℚ → PdFloat
deriving DecidableEq

def PdFloat.isNan : PdFloat → Bool
  | .nan => true
  | _ => false

def pdDiv : PdFloat → PdFloat → PdFloat
  | .nan, _ => .nan
  | _, .nan => .nan
  | .num a, .num b =>
      if b = 0 then (if a = 0 then .nan else if 0 < a then .inf else .neginf)
      else .num (a / b)
  | .inf, .num b => if b < 0 then .neginf else .inf
  | .neginf, .num b => if b < 0 then .inf else .neginf
  | .num _, .inf => .num 0
  | .num _, .neginf => .num 0
  | .inf, .inf => .nan
  | .inf, .neginf => .nan
  | .neginf, .inf => .nan
  | .neginf, .neginf => .nan

def pdSubOne : PdFloat → PdFloat
  | .nan => .nan
  | .inf => .inf
  | .neginf => .neginf
  | .num a => .num (a - 1)

/-- Forward fill (`fillna(method="pad")`), carrying the last non-`NaN` value. -/
def ffillFrom : PdFloat → List PdFloat → List PdFloat
  | _, [] => []
  | last, .nan :: xs => last :: ffillFrom last xs
  | _, v :: xs => v :: ffillFrom v xs

def ffill (l : List PdFloat) : List PdFloat := ffillFrom .nan l

/-- pandas `Series.pct_change(12)`: pad-fill, then position `t` holds
`filled[t] / filled[t-12] - 1`, where the shifted value for `t < 12` is `NaN`. -/
def pct_change_12 (s : List PdFloat) : List PdFloat :=
  (List.range s.length).map fun t =>
    pdSubOne (pdDiv ((ffill s).getD t .nan)
      (if t < 12 then .nan else (ffill s).getD (t - 12) .nan))

/-! ## The FX spreadsheet (`load_bank_fx`, bank_fx_data.py lines 122-203)

The parsed sheet (`pd.read_excel(..., header=3, index_col=0)`) is a list of
rows.  Each row carries its index label (`项目`, column 0 of the frame), the
value of the label column (`label_col`, holding 结汇/售汇/差额 for triad rows)
and the remaining cells, one per data column.  A data column is described by
whether its raw header is an `Unnamed:` placeholder (such columns are excluded
from `date_cols`) and by the canonical month its header parses to under
`_to_month_end` (`none` = NaT). -/

inductive Cell where
  | num : ℚ → Cell
  | blank : Cell
  | text : String → Cell
deriving DecidableEq

/-- Model of `pd.to_numeric(errors="coerce")` on one cell. -/
def Cell.toNum : Cell → Option ℚ
  | .num q => some q
  | _ => none

structure SheetCol where
  unnamed : Bool
  month : Option ℤ
deriving DecidableEq

structure XRow where
  idx : String
  label : String
  cells : List Cell
deriving DecidableEq

structure Sheet where
  cols : List SheetCol
  rows : List XRow
deriving DecidableEq

/-- Lookup `raw.loc[lbl]`: the first row with the given index label (the sheets in
scope have unique `项目` labels). -/
def findRowByIdx (sheet : Sheet) (lbl : String) : Option XRow :=
  sheet.rows.find? fun r => r.idx = lbl

/-- The slice `row[date_cols]` as a raw series: the non-`Unnamed:` columns of a row,
each canonicalized month label paired with the numeric value of the cell. -/
def mainSeries (sheet : Sheet) (r : XRow) : List (Option ℤ × Option ℚ) :=
  ((sheet.cols.zip r.cells).filter fun pc => !pc.1.unnamed).map fun pc =>
    (pc.1.month, pc.2.toNum)

/-- NaN-propagating subtraction of two aligned frame cells. -/
def osub : Option ℚ → Option ℚ → Option ℚ
  | some a, some b => some (a - b)
  | _, _ => none

def toPdFloat : Option ℚ → PdFloat
  | some q => .num q
  | none => .nan

/-- Value of a normalized (unique-key) series at month `m`, `none` when the
month is absent — how `pd.DataFrame({...})` aligns series on the union index. -/
def seriesLookup (l : List (ℤ × ℚ)) (m : ℤ) : Option ℚ :=
  (l.find? fun p => p.1 = m).map Prod.snd

structure MainFrame where
  months : List ℤ
  settle : List (Option ℚ)
  sale : List (Option ℚ)
  bal : List (Option ℚ)
  settleYoy : List PdFloat
  saleYoy : List PdFloat
  balYoy : List PdFloat
deriving DecidableEq

/-- Main 结汇/售汇/差额 table of `load_bank_fx` (lines 139-150): looks up the
three labels (`KeyError` on any of them returns `None`), normalizes 结汇 and
售汇, aligns them on the sorted union of their months, recomputes 差额 as
结汇 − 售汇 (the parsed 三、差额 row is only required to exist; its values are
not used), and appends the three `pct_change(12)` columns. -/
def load_bank_fx_main (sheet : Sheet) : Option MainFrame :=
  match findRowByIdx sheet "一、结汇", findRowByIdx sheet "二、售汇",
      findRowByIdx sheet "三、差额" with
  | some rs, some rl, some _ =>
    let settle := normalize_series (mainSeries sheet rs)
    let sale := normalize_series (mainSeries sheet rl)
    let months := sortByKey (fun m : ℤ => m) (((settle ++ sale).map Prod.fst).dedup)
    let settleC := months.map (seriesLookup settle)
    let saleC := months.map (seriesLookup sale)
    let balC := (settleC.zip saleC).map fun p => osub p.1 p.2
    some { months := months, settle := settleC, sale := saleC, bal := balC,
           settleYoy := pct_change_12 (settleC.map toPdFloat),
           saleYoy := pct_change_12 (saleC.map toPdFloat),
           balYoy := pct_change_12 (balC.map toPdFloat) }
  | _, _, _ => none

/-- Replace the data cells of every 三、差额 row, leaving everything else
unchanged (used to state that the parsed 差额 values never reach the output). -/
def mutateBal (f : List Cell → List Cell) (sheet : Sheet) : Sheet :=
  { sheet with
    rows := sheet.rows.map fun r =>
      if r.idx = "三、差额" then { r with cells := f r.cells } else r }

/-! ## `_tri_df` (bank_fx_data.py lines 177-201)

`_tri_df` locates the section label in the index, takes the three rows starting
there (`raw.iloc[i : i + 3]` — the labeled row itself carries the 结汇 data),
re-indexes them by the label column, drops it, transposes (so the data columns
become the row axis, including the `Unnamed:` columns), canonicalizes the time
axis to month-end, coerces to numeric, drops all-NaN rows, deduplicates by
month when the axis has duplicates (`groupby(...).last()`, which also drops
NaT keys), sorts (NaT last), and selects the columns 结汇/售汇/差额 by name. -/

structure TriFrame where
  cols : List String
  rows : List (Option ℤ × List (Option ℚ))
deriving DecidableEq

def emptyTriFrame : TriFrame := { cols := ["结汇", "售汇", "差额"], rows := [] }

/-- The three rows `raw.iloc[i : i + 3]`. -/
def triBlockAt (sheet : Sheet) (i : ℕ) : List XRow :=
  (sheet.rows.drop i).take 3

/-- The transposed triad: one entry per data column of the sheet, carrying the
canonical month of the column header and the numeric triad values. -/
def triEntries (sheet : Sheet) (tri : List XRow) : List (Option ℤ × List (Option ℚ)) :=
  (List.range sheet.cols.length).map fun j =>
    ((sheet.cols.getD j ⟨true, none⟩).month,
      tri.map fun r => (r.cells.getD j .blank).toNum)

/-- Model of `dropna(how="all")`: keep entries with at least one numeric value. -/
def dropAllNone (entries : List (Option ℤ × List (Option ℚ))) :
    List (Option ℤ × List (Option ℚ)) :=
  entries.filter fun e => e.2.any fun v => v.isSome

/-- After the label lookup succeeds at position `i`: the surviving transposed
entries of the triad. -/
def triCleaned (sheet : Sheet) (i : ℕ) : List (Option ℤ × List (Option ℚ)) :=
  dropAllNone (triEntries sheet (triBlockAt sheet i))

/-- Per-month, per-column `groupby(...).last()` value: the last non-null value
of column `j` among the entries of month `m`. -/
def lastColVal (entries : List (Option ℤ × List (Option ℚ))) (m : ℤ) (j : ℕ) :
    Option ℚ :=
  ((entries.filter fun e => e.1 = some m).filterMap fun e => e.2.getD j none).getLast?

/-- The conditional dedup of lines 190-191: only applied when the month axis
has duplicates; `groupby` drops NaT keys and sorts the groups. -/
def triDedup (entries : List (Option ℤ × List (Option ℚ))) (ncols : ℕ) :
    List (Option ℤ × List (Option ℚ)) :=
  if entries ≠ [] ∧ ¬ (entries.map Prod.fst).Nodup then
    (sortByKey (fun m : ℤ => m) ((entries.filterMap Prod.fst).dedup)).map fun m =>
      (some m, (List.range ncols).map fun j => lastColVal entries m j)
  else entries

/-- Sort key of the month axis: NaT (`none`) sorts last (`na_position="last"`). -/
def keyTop : Option ℤ → WithTop ℤ
  | some m => (m : WithTop ℤ)
  | none => ⊤

def triSortIdx (entries : List (Option ℤ × List (Option ℚ))) :
    List (Option ℤ × List (Option ℚ)) :=
  sortByKey (fun e => keyTop e.1) entries

/-- Column selection `tri[["结汇", "售汇", "差额"]]`: each name must occur among
the triad labels (else pandas raises a `KeyError`, which `load_bank_fx` does
not catch); values are reordered accordingly. -/
def selectTriCols (labels : List String) (rows : List (Option ℤ × List (Option ℚ))) :
    Except String (List (Option ℤ × List (Option ℚ))) :=
  match (["结汇", "售汇", "差额"].mapM fun w => labels.indexOf? w) with
  | some ps => .ok (rows.map fun e => (e.1, ps.map fun p => e.2.getD p none))
  | none => .error "KeyError: column not found"

/-- Model of `_tri_df` itself: `.ok none` models the `return None` taken when the
section label is absent from the index. -/
def tri_df (sheet : Sheet) (lbl : String) : Except String (Option TriFrame) :=
  match sheet.rows.findIdx? (fun r => r.idx = lbl) with
  | none => .ok none
  | some i =>
    let labels := (triBlockAt sheet i).map XRow.label
    let dd := triSortIdx (triDedup (triCleaned sheet i) labels.length)
    (selectTriCols labels dd).map fun rs =>
      some { cols := ["结汇", "售汇", "差额"], rows := rs }

/-- Lines 195-201: the caller substitutes a schema-stable empty frame when
`_tri_df` returns `None`. -/
def fwdTri (sheet : Sheet) (lbl : String) : Except String TriFrame :=
  (tri_df sheet lbl).map fun o => o.getD emptyTriFrame

/-- Modelled from the spec for comparison only: the triad read of §4.8 taken
literally — "the three rows immediately following that label", i.e. rows
`i + 1 .. i + 3`.  The code's `raw.iloc[i : i + 3]` (`triBlockAt`) instead
starts at the labeled row itself, which carries the 结汇 data. -/
def specTriBlockAfter (sheet : Sheet) (i : ℕ) : List XRow :=
  (sheet.rows.drop (i + 1)).take 3

/-- Concrete sheet for the C8 counterexample: the section-label row carries
the 结汇 values and an extra row follows the triad, so the rows starting at
the label and the rows following the label differ. -/
def exTriSheet : Sheet :=
  { cols := [{ unnamed := false, month := some (month_key 2024 1) }]
    rows :=
      [{ idx := "四、远期结售汇签约额", label := "结汇", cells := [.num 10] },
       { idx := "", label := "售汇", cells := [.num 20] },
       { idx := "", label := "差额", cells := [.num 30] },
       { idx := "五、其他", label := "", cells := [.num 99] }] }

/-! ## `ytd_sum_and_yoy` (bank_fx_data.py lines 207-217)

The input series is indexed by (year, month) pairs; `dropna()` keeps the
present observations (`presentObs`), `sort_index()` orders them by the
lexicographic key, `s.index.max()` is the maximal key.  Both window sums are
positional: `s[s.index.year == y].iloc[:month]` takes the **first `month`
observations** of year `y` in date order, not the January-through-`month`
calendar window. -/

def ymKey (k : ℤ × ℤ) : Lex (ℤ × ℤ) := toLex k

def presentObs (s : List ((ℤ × ℤ) × Option ℚ)) : List ((ℤ × ℤ) × ℚ) :=
  s.filterMap fun p => p.2.map fun q => (p.1, q)

def sortObs (l : List ((ℤ × ℤ) × ℚ)) : List ((ℤ × ℤ) × ℚ) :=
  sortByKey (fun p => ymKey p.1) l

/-- Computation of `s.index.max()` via a running maximum. -/
def ymMaxFrom (d : ℤ × ℤ) : List (ℤ × ℤ) → ℤ × ℤ
  | [] => d
  | k :: ks => ymMaxFrom (if ymKey d ≤ ymKey k then k else d) ks

/-- The (year, month) of the latest observation (`s.index.max()`). -/
def lastObsKey (k0 : (ℤ × ℤ) × ℚ) (rest : List ((ℤ × ℤ) × ℚ)) : ℤ × ℤ :=
  ymMaxFrom k0.1 (rest.map Prod.fst)

/-- The sum `s[s.index.year == y].iloc[:m].sum()` on the sorted present observations. -/
def windowSum (s2 : List ((ℤ × ℤ) × ℚ)) (y m : ℤ) : ℚ :=
  (((s2.filter fun p => p.1.1 = y).take m.toNat).map Prod.snd).sum

/-- Model of `ytd_sum_and_yoy`.  `.ok none` is the `(None, None, None)` return
for an empty series; a non-empty series whose values are all NaN makes the
Python function fail (`int(NaT.year)` on the max of an empty index), modeled
as `.error`.  Otherwise returns `(cur, yoy, last)` where `yoy` is `None`
(`NaN`) when the previous year is absent from the index or the positional
previous-year window sums to zero. -/
def ytd_sum_and_yoy (s : List ((ℤ × ℤ) × Option ℚ)) :
    Except String (Option (ℚ × Option ℚ × (ℤ × ℤ))) :=
  if s.isEmpty then .ok none
  else
    match presentObs s with
    | [] => .error "series has no datetime index entries after dropna"
    | k0 :: rest =>
      let s2 := sortObs (k0 :: rest)
      let last := lastObsKey k0 rest
      let cur := windowSum s2 last.1 last.2
      let prev := windowSum s2 (last.1 - 1) last.2
      let yoy :=
        if ((k0 :: rest).any fun p => p.1.1 = last.1 - 1) ∧ prev ≠ 0 then
          some (cur / prev - 1)
        else none
      .ok (some (cur, yoy, last))

/-- Modelled from the spec (§4.7, §3 DerivedMetric), for comparison only: the
previous-year YTD window the spec describes is the **calendar** window
January through the cutoff month, i.e. the present observations of year `y`
with month ≤ `m`.  `ytd_sum_and_yoy` instead takes the first `m` observations
of year `y` positionally; the two differ when the previous year has a gap
before the cutoff month. -/
def specCalendarWindowSum (s : List ((ℤ × ℤ) × Option ℚ)) (y m : ℤ) : ℚ :=
  (((presentObs s).filter fun p => p.1.1 = y ∧ p.1.2 ≤ m).map Prod.snd).sum

/-! ## The customs panel (`data_utils.py`)

A tidied customs observation row: entity name (地区), reporting period
(时间, one row per (region, year, month) per source file), and the six value
columns.  `tidy_one_month_csv` / `tidy_zhejiang_csv` produce these rows; file
reading and the HTML/CSV header plumbing stay outside the model. -/

structure CRow where
  region : String
  year : ℤ
  month : ℤ
  imexCur : Option ℚ
  imexYtd : Option ℚ
  exCur : Option ℚ
  exYtd : Option ℚ
  imCur : Option ℚ
  imYtd : Option ℚ
deriving DecidableEq

/-- Raw row of a 浙江省-YYYY-MM.csv file after `pd.read_csv`: place name
(收发货人所在地) and the three cumulative value columns (当期进出口 /
当期进口 / 当期出口; the 同比 columns are re-derived later and omitted). -/
structure ZjRaw where
  place : String
  imexYtd : Option ℚ
  imYtd : Option ℚ
  exYtd : Option ℚ
deriving DecidableEq

/-- The list `zhejiang_cities[1:]` of `tidy_zhejiang_csv` (合计 excluded). -/
def zhejiangCityRaw : List String :=
  ["杭州地区", "湖州地区", "嘉兴地区", "金华地区", "丽水地区", "宁波地区",
   "衢州地区", "绍兴地区", "台州地区", "温州地区", "舟山地区"]

/-- Unit rescale of `tidy_zhejiang_csv` (lines 155-160): the cumulative value
columns are multiplied by 1/10000 exactly when `year == 2024 or year >= 2025`. -/
def zjRescale (year : ℤ) (v : Option ℚ) : Option ℚ :=
  if year = 2024 ∨ 2025 ≤ year then v.map fun q => q * (1 / 10000) else v

/-- Model of `tidy_zhejiang_csv` on the parsed rows of one file: filter to the eleven
city rows, rename the columns, strip the 地区 suffix to 市, stamp the (year,
month) from the filename, and apply the unit rescale to the three cumulative
columns.  The single-month columns are not present yet (`none`). -/
def tidy_zhejiang_csv (year month : ℤ) (rows : List ZjRaw) : List CRow :=
  (rows.filter fun r => r.place ∈ zhejiangCityRaw).map fun r =>
    { region := r.place.replace "地区" "市"
      year := year
      month := month
      imexCur := none, exCur := none, imCur := none
      imexYtd := zjRescale year r.imexYtd
      exYtd := zjRescale year r.exYtd
      imYtd := zjRescale year r.imYtd }

/-- Sort key of `sort_values(["地区", "时间"])`. -/
def rowKey (r : CRow) : Lex (List ℕ × Lex (ℤ × ℤ)) :=
  toLex (strCode r.region, toLex (r.year, r.month))

def sortCRows (l : List CRow) : List CRow := sortByKey rowKey l

/-- Predicate selecting the previous calendar month's row:
`region_data["时间"] == f"{year}-{month-1:02d}"`. -/
def prevMonthOf (r p : CRow) : Bool :=
  p.year = r.year ∧ p.month = r.month - 1

/-- One step of `calculate_monthly_from_cumulative` (lines 176-205):
`regionData` is the entity's own time-sorted slice; January copies the
cumulative values, other months subtract the first row found for the previous
calendar month, and a missing previous month yields literal zeros. -/
def monthlyRow (regionData : List CRow) (r : CRow) : CRow :=
  if r.month = 1 then
    { r with imexCur := r.imexYtd, imCur := r.imYtd, exCur := r.exYtd }
  else
    match regionData.find? (prevMonthOf r) with
    | some p =>
      { r with imexCur := osub r.imexYtd p.imexYtd
               imCur := osub r.imYtd p.imYtd
               exCur := osub r.exYtd p.exYtd }
    | none => { r with imexCur := some 0, imCur := some 0, exCur := some 0 }

/-- Model of `calculate_monthly_from_cumulative`: sort by (region, time); the rows are
emitted region by region (regions in sorted order, each region's rows
time-sorted), which is exactly the sorted order itself. -/
def calculate_monthly_from_cumulative (df : List CRow) : List CRow :=
  let s := sortCRows df
  s.map fun r => monthlyRow (s.filter fun p => p.region = r.region) r

/-- The set (as a list, membership is what matters) of entity names occurring
in the tidied Zhejiang panels — `zhejiang_cities` of `consolidate_with_yoy`. -/
def zjCityNames (zjPanels : List (List CRow)) : List String :=
  (zjPanels.flatten.map CRow.region)

/-- Lines 257-262: each national extract with the Zhejiang entities dropped;
extracts left empty by the filter are discarded. -/
def broadContribution (natPanels : List (List CRow)) (cities : List String) :
    List (List CRow) :=
  (natPanels.map fun p => p.filter fun r => ¬ r.region ∈ cities).filter
    fun p => ¬ p = []

/-- Line 275: the broad panel's aggregate entity 总值 becomes 全国. -/
def renameRegion (s : String) : String := if s = "总值" then "全国" else s

def renameRow (r : CRow) : CRow := { r with region := renameRegion r.region }

/-- The list `all_rows` of line 267: filtered national extracts followed by the single
differenced Zhejiang panel (present when any Zhejiang file was tidied). -/
def allRowsOf (natPanels zjPanels : List (List CRow)) : List (List CRow) :=
  broadContribution natPanels (zjCityNames zjPanels) ++
    (if zjPanels.isEmpty then [] else [calculate_monthly_from_cumulative zjPanels.flatten])

/-- Merge/reconcile/rename/sort stages of `consolidate_with_yoy` (lines
210-290) on tidied per-file panels.  `raise RuntimeError` when `all_rows` is
empty.  When `all_rows` is non-empty but holds no row (only possible when the
Zhejiang concatenation was empty and no national extract survived), the
concatenated frame has no columns and line 275 (`master_df["地区"]`) raises a
`KeyError`, modeled as the second error.  The per-entity YoY annotation of
lines 292-295 is `pct_change_12` applied to each value column per entity. -/
def consolidate_merge (natPanels zjPanels : List (List CRow)) :
    Except String (List CRow) :=
  let allRows := allRowsOf natPanels zjPanels
  if allRows.isEmpty then .error "没有可整合的数据"
  else
    let master := allRows.flatten
    if master.isEmpty then .error "KeyError: 地区"
    else .ok (sortCRows (master.map renameRow))

/-! ## Concrete inputs used by the example and counterexample theorems -/

/-- A tidied national-extract row for 北京市, December 2023. -/
def dupCustomsRow : CRow :=
  { region := "北京市", year := 2023, month := 12,
    imexCur := some 7, imexYtd := some 100,
    exCur := none, exYtd := none, imCur := none, imYtd := none }

/-- The same (region, month) observed a second time in the same raw extract,
with a different cumulative value. -/
def dupCustomsRow2 : CRow := { dupCustomsRow with imexYtd := some 101 }

/-- Broad (national) panel of the reconciliation example: aggregate 总值 = 100,
杭州市 = 30, 宁波市 = 20, one month (January 2024). -/
def exBroadRows : List CRow :=
  [{ region := "总值", year := 2024, month := 1,
     imexCur := some 100, imexYtd := some 100,
     exCur := none, exYtd := none, imCur := none, imYtd := none },
   { region := "杭州市", year := 2024, month := 1,
     imexCur := some 30, imexYtd := some 30,
     exCur := none, exYtd := none, imCur := none, imYtd := none },
   { region := "宁波市", year := 2024, month := 1,
     imexCur := some 20, imexYtd := some 20,
     exCur := none, exYtd := none, imCur := none, imYtd := none }]

/-- Narrow (Zhejiang, priority) panel of the same example: 杭州市 = 32. -/
def exNarrowRows : List CRow :=
  [{ region := "杭州市", year := 2024, month := 1,
     imexCur := none, imexYtd := some 32,
     exCur := none, exYtd := none, imCur := none, imYtd := none }]

/-- Expected merged panel: 全国 = 100 (renamed from 总值), 宁波市 = 20 from the
broad panel, 杭州市 = 32 exclusively from the narrow panel (its January
single-month value equals its cumulative value). -/
def exMergedRows : List CRow :=
  [{ region := "全国", year := 2024, month := 1,
     imexCur := some 100, imexYtd := some 100,
     exCur := none, exYtd := none, imCur := none, imYtd := none },
   { region := "宁波市", year := 2024, month := 1,
     imexCur := some 20, imexYtd := some 20,
     exCur := none, exYtd := none, imCur := none, imYtd := none },
   { region := "杭州市", year := 2024, month := 1,
     imexCur := some 32, imexYtd := some 32,
     exCur := none, exYtd := none, imCur := none, imYtd := none }]

/-- Cumulative series {Jan: 10, Feb: 25, Mar: 25} for one entity. -/
def exCumRows : List CRow :=
  [{ region := "宁波市", year := 2023, month := 1,
     imexCur := none, imexYtd := some 10,
     exCur := none, exYtd := some 10, imCur := none, imYtd := some 10 },
   { region := "宁波市", year := 2023, month := 2,
     imexCur := none, imexYtd := some 25,
     exCur := none, exYtd := some 25, imCur := none, imYtd := some 25 },
   { region := "宁波市", year := 2023, month := 3,
     imexCur := none, imexYtd := some 25,
     exCur := none, exYtd := some 25, imCur := none, imYtd := some 25 }]

/-- Expected single-month series {Jan: 10, Feb: 15, Mar: 0}. -/
def exMonthlyRows : List CRow :=
  [{ region := "宁波市", year := 2023, month := 1,
     imexCur := some 10, imexYtd := some 10,
     exCur := some 10, exYtd := some 10, imCur := some 10, imYtd := some 10 },
   { region := "宁波市", year := 2023, month := 2,
     imexCur := some 15, imexYtd := some 25,
     exCur := some 15, exYtd := some 25, imCur := some 15, imYtd := some 25 },
   { region := "宁波市", year := 2023, month := 3,
     imexCur := some 0, imexYtd := some 25,
     exCur := some 0, exYtd := some 25, imCur := some 0, imYtd := some 25 }]

/-- A 13-observation dense series whose value 12 positions (one year) earlier
is zero: `pct_change(12)` divides by zero there. -/
def exPctZero : List PdFloat :=
  PdFloat.num 0 :: (List.replicate 11 (PdFloat.num 1) ++ [PdFloat.num 5])

/-- Series with a previous-year gap: 2022 starts in February and runs through
April, 2023 has January through March.  The cutoff month of the latest year is
March, but the first three 2022 observations are February, March and April. -/
def exYtdGap : List ((ℤ × ℤ) × Option ℚ) :=
  [((2022, 2), some 1), ((2022, 3), some 1), ((2022, 4), some 100),
   ((2023, 1), some 1), ((2023, 2), some 1), ((2023, 3), some 1)]

/-- A small gap-free series used to instantiate the YTD theorem. -/
def exYtdDense : List ((ℤ × ℤ) × Option ℚ) :=
  [((2023, 1), some 2), ((2022, 1), some 1), ((2023, 2), some 4)]

/-! ## Helper lemmas about `sortByKey` -/

theorem sortByKey_perm {α K : Type} [LinearOrder K] (f : α → K) (l : List α) :
    (sortByKey f l).Perm l :=
  List.perm_insertionSort _ l

theorem sortByKey_mem {α K : Type} [LinearOrder K] (f : α → K) (l : List α) (a : α) :
    a ∈ sortByKey f l ↔ a ∈ l :=
  (sortByKey_perm f l).mem_iff

theorem sortByKey_sorted {α K : Type} [LinearOrder K] (f : α → K) (l : List α) :
    List.Sorted (fun a b => f a ≤ f b) (sortByKey f l) :=
  List.sorted_insertionSort _ l

theorem sortByKey_eq_of_sorted {α K : Type} [LinearOrder K] {f : α → K} {l : List α}
    (h : List.Sorted (fun a b => f a ≤ f b) l) : sortByKey f l = l :=
  List.Sorted.insertionSort_eq h

/-! ## Claim C2 -/

/-- Claim C2: the unit rescaler of `tidy_zhejiang_csv` multiplies the three
regional cumulative value columns by the fixed factor 1/10000 exactly when the
reporting (year, month) lies on or after the cutover month as implemented,
(2024, 1): the code condition `year == 2024 or year >= 2025` is `year ≥ 2024`.
A value dated exactly at the cutover month (2024-01, the third conjunct) is
rescaled and the immediately preceding month (2023-12, the fourth conjunct) is
not; the last conjunct checks the rescaler is what `tidy_zhejiang_csv` applies
to the three cumulative columns of every emitted row. -/
theorem zj_rescale_cutover (y m : ℤ) (v : ℚ) (hm : 1 ≤ m) :
    (toLex ((2024 : ℤ), (1 : ℤ)) ≤ toLex (y, m) →
      zjRescale y (some v) = some (v * (1 / 10000))) ∧
    (toLex (y, m) < toLex ((2024 : ℤ), (1 : ℤ)) →
      zjRescale y (some v) = some v) ∧
    zjRescale 2024 (some v) = some (v * (1 / 10000)) ∧
    zjRescale 2023 (some v) = some v ∧
    (∀ rows r, r ∈ tidy_zhejiang_csv y m rows →
      ∃ r0 ∈ rows, r.imexYtd = zjRescale y r0.imexYtd ∧
        r.exYtd = zjRescale y r0.exYtd ∧ r.imYtd = zjRescale y r0.imYtd) := by
  refine ⟨?_, ?_, ?_, ?_, ?_⟩
  · intro h
    rw [Prod.Lex.le_iff] at h
    have hy : y = 2024 ∨ 2025 ≤ y := by
      rcases h with h | ⟨h1, _⟩
      · exact Or.inr (by omega)
      · exact Or.inl h1.symm
    simp [zjRescale, hy]
  · intro h
    rw [Prod.Lex.lt_iff] at h
    have hy : ¬ (y = 2024 ∨ 2025 ≤ y) := by
      rcases h with h | ⟨h1, h2⟩
      · omega
      · omega
    simp [zjRescale, hy]
  · norm_num [zjRescale]
  · norm_num [zjRescale]
  · intro rows r hr
    unfold tidy_zhejiang_csv at hr
    rw [List.mem_map] at hr
    obtain ⟨r0, hr0, rfl⟩ := hr
    exact ⟨r0, (List.mem_filter.1 hr0).1, rfl, rfl, rfl⟩

/-- Witness for C2: the boundary months, at value 5. -/
theorem zj_rescale_cutover_witness :
    zjRescale 2024 (some 5) = some (5 * (1 / 10000)) ∧
      zjRescale 2023 (some 5) = some 5 := by
  refine ⟨(zj_rescale_cutover 2024 1 5 (by norm_num)).1 (by decide), ?_⟩
  exact (zj_rescale_cutover 2023 12 5 (by norm_num)).2.1 (by decide)

/-! ## Claim C4 -/

/-- Claim C4: the cumulative differencer.  For a January row the single-month
values equal the cumulative values; for any other month the first row found
for the previous calendar month of the same entity is subtracted; when no such
row exists the single-month values are zero.  The final conjunct is the
worked example: cumulative {Jan: 10, Feb: 25, Mar: 25} yields monthly
{Jan: 10, Feb: 15, Mar: 0}. -/
theorem calc_monthly_rules :
    (∀ (regionData : List CRow) (r : CRow),
      (r.month = 1 →
        monthlyRow regionData r =
          { r with imexCur := r.imexYtd, imCur := r.imYtd, exCur := r.exYtd }) ∧
      (∀ p, r.month ≠ 1 →
        regionData.find? (prevMonthOf r) = some p →
        monthlyRow regionData r =
          { r with imexCur := osub r.imexYtd p.imexYtd
                   imCur := osub r.imYtd p.imYtd
                   exCur := osub r.exYtd p.exYtd }) ∧
      (r.month ≠ 1 →
        regionData.find? (prevMonthOf r) = none →
        monthlyRow regionData r =
          { r with imexCur := some 0, imCur := some 0, exCur := some 0 })) ∧
    calculate_monthly_from_cumulative exCumRows = exMonthlyRows := by
  constructor
  · intro regionData r
    refine ⟨fun h1 => by simp [monthlyRow, h1], fun p hne hfind => ?_, fun hne hfind => ?_⟩
    · simp [monthlyRow, hne, hfind]
    · simp [monthlyRow, hne, hfind]
  · have hsort : sortCRows exCumRows = exCumRows := sortByKey_eq_of_sorted (by decide)
    unfold calculate_monthly_from_cumulative
    rw [hsort]
    simp [exCumRows, exMonthlyRows, monthlyRow, prevMonthOf, osub, List.find?]
    norm_num

/-- Witness for C4: a month-12 row with no previous-month data gets zeros. -/
theorem calc_monthly_rules_witness :
    monthlyRow [] dupCustomsRow =
      { dupCustomsRow with imexCur := some 0, imCur := some 0, exCur := some 0 } :=
  (calc_monthly_rules.1 [] dupCustomsRow).2.2 (by decide) rfl

/-! ## Claim C6 -/

/-- Claim C6: `consolidate_with_yoy` raises a hard error when nothing is left
to merge after reconciliation (`raise RuntimeError("没有可整合的数据")` when
`all_rows` is empty) and never returns an empty panel: every `.ok` result is
non-empty (the only other path to an empty master, a surviving but empty
Zhejiang concatenation alongside zero national extracts, dies on the
`master_df["地区"]` `KeyError`). -/
theorem consolidate_fails_loudly (natPanels zjPanels : List (List CRow)) :
    (allRowsOf natPanels zjPanels = [] →
      consolidate_merge natPanels zjPanels = .error "没有可整合的数据") ∧
    (∀ out, consolidate_merge natPanels zjPanels = .ok out → out ≠ []) := by
  constructor
  · intro h
    simp [consolidate_merge, h]
  · intro out hout hempty
    unfold consolidate_merge at hout
    by_cases h1 : (allRowsOf natPanels zjPanels).isEmpty
    · rw [if_pos h1] at hout
      exact Except.noConfusion hout
    · rw [if_neg h1] at hout
      simp only [] at hout
      by_cases h2 : (allRowsOf natPanels zjPanels).flatten.isEmpty
      · rw [if_pos h2] at hout
        exact Except.noConfusion hout
      · rw [if_neg h2] at hout
        have hout2 : sortCRows ((allRowsOf natPanels zjPanels).flatten.map renameRow) = out :=
          Except.ok.inj hout
        subst hempty
        have hperm : (sortCRows ((allRowsOf natPanels zjPanels).flatten.map renameRow)).Perm
            ((allRowsOf natPanels zjPanels).flatten.map renameRow) :=
          sortByKey_perm rowKey _
        rw [hout2] at hperm
        have hX := hperm.symm.eq_nil
        rw [List.map_eq_nil_iff] at hX
        rw [List.isEmpty_iff] at h2
        exact h2 hX

/-- Witness for C6: with no usable extracts at all, the run errors out. -/
theorem consolidate_fails_loudly_witness :
    consolidate_merge [] [] = .error "没有可整合的数据" :=
  (consolidate_fails_loudly [] []).1 rfl

/-! ## Claim C5 -/

/-- Claim C5: entity reconciliation.  Every row the broad (national) panel
contributes to the merge has a region outside the narrow (Zhejiang) panel's
entity set; the merged output is a permutation of the renamed contributed rows
and never contains the aggregate name 总值 (it is renamed to 全国); and the
worked example: broad {总值: 100, 杭州市: 30, 宁波市: 20} merged with narrow
{杭州市: 32} yields {全国: 100, 宁波市: 20, 杭州市: 32} with 杭州市 taken
exclusively from the narrow panel. -/
theorem consolidate_reconciliation :
    (∀ (natPanels zjPanels : List (List CRow)),
      ∀ r ∈ (broadContribution natPanels (zjCityNames zjPanels)).flatten,
        r.region ∉ zjCityNames zjPanels) ∧
    (∀ natPanels zjPanels out, consolidate_merge natPanels zjPanels = .ok out →
      out.Perm ((allRowsOf natPanels zjPanels).flatten.map renameRow) ∧
      ∀ r ∈ out, r.region ≠ "总值") ∧
    consolidate_merge [exBroadRows] [exNarrowRows] = .ok exMergedRows := by
  refine ⟨?_, ?_, ?_⟩
  · intro natPanels zjPanels r hr
    rw [List.mem_flatten] at hr
    obtain ⟨p, hp, hrp⟩ := hr
    unfold broadContribution at hp
    have hp2 := (List.mem_filter.1 hp).1
    rw [List.mem_map] at hp2
    obtain ⟨q, _, rfl⟩ := hp2
    have hpred := (List.mem_filter.1 hrp).2
    simpa using hpred
  · intro natPanels zjPanels out hout
    unfold consolidate_merge at hout
    by_cases h1 : (allRowsOf natPanels zjPanels).isEmpty
    · rw [if_pos h1] at hout
      exact Except.noConfusion hout
    · rw [if_neg h1] at hout
      simp only [] at hout
      by_cases h2 : (allRowsOf natPanels zjPanels).flatten.isEmpty
      · rw [if_pos h2] at hout
        exact Except.noConfusion hout
      · rw [if_neg h2] at hout
        have hout2 : sortCRows ((allRowsOf natPanels zjPanels).flatten.map renameRow) = out :=
          Except.ok.inj hout
        constructor
        · rw [← hout2]
          exact sortByKey_perm rowKey _
        · intro r hr
          rw [← hout2] at hr
          have hr2 : r ∈ (allRowsOf natPanels zjPanels).flatten.map renameRow :=
            (sortByKey_perm rowKey _).subset hr
          rw [List.mem_map] at hr2
          obtain ⟨r0, _, rfl⟩ := hr2
          show renameRegion r0.region ≠ "总值"
          unfold renameRegion
          split
          · decide
          · assumption
  · decide

/-- Witness for C5: the merged example panel is a permutation of the renamed
contributed rows. -/
theorem consolidate_reconciliation_witness :
    exMergedRows.Perm ((allRowsOf [exBroadRows] [exNarrowRows]).flatten.map renameRow) :=
  ((consolidate_reconciliation.2.1) [exBroadRows] [exNarrowRows] exMergedRows
    (consolidate_reconciliation.2.2)).1

/-! ## Claim C1, counterexample part -/

/-- Claim C1 counterexample: the customs panel is finalized without any
temporal deduplication.  A raw extract in which the same region appears twice
for the same reporting month yields a finalized panel holding that
(entity, canonical month) pair twice — the uniqueness invariant fails for the
customs panel (the FX tables do deduplicate; see the amended theorem). -/
theorem customs_panel_duplicate_months :
    consolidate_merge [[dupCustomsRow, dupCustomsRow2]] [] =
      .ok [dupCustomsRow, dupCustomsRow2] ∧
    ¬ (([dupCustomsRow, dupCustomsRow2].map fun r => (r.region, r.year, r.month)).Nodup) := by
  exact ⟨by decide, by decide⟩

/-! ## Claim C3, counterexample part -/

/-- Claim C3 counterexample: on a dense 13-month series whose first value is
zero, the YoY column at position 12 (the same month one year later) is `inf`
— a present, non-missing value — whereas the claim requires it to be missing
when the divisor is zero. -/
theorem pct12_zero_divisor_counterexample :
    (pct_change_12 exPctZero).getD 12 .nan = .inf ∧ PdFloat.inf ≠ PdFloat.nan :=
  ⟨by decide, by decide⟩

/-! ## Claim C3, amended theorem -/

theorem ffillFrom_of_no_nan (a : PdFloat) (l : List PdFloat)
    (h : ∀ x ∈ l, x ≠ PdFloat.nan) : ffillFrom a l = l := by
  induction l generalizing a with
  | nil => rfl
  | cons x xs ih =>
    have hx : x ≠ PdFloat.nan := h x (List.mem_cons_self x xs)
    have hxs : ∀ y ∈ xs, y ≠ PdFloat.nan := fun y hy => h y (List.mem_cons_of_mem x hy)
    cases x with
    | nan => exact absurd rfl hx
    | inf =>
      rw [ffillFrom, ih _ hxs]
      exact hx
    | neginf =>
      rw [ffillFrom, ih _ hxs]
      exact hx
    | num q =>
      rw [ffillFrom, ih _ hxs]
      exact hx

theorem getD_range_map {β : Type} (g : ℕ → β) (n t : ℕ) (d : β) (ht : t < n) :
    ((List.range n).map g).getD t d = g t := by
  rw [List.getD_eq_getElem?_getD, List.getElem?_map, List.getElem?_range ht]
  rfl

theorem getD_map_num (s : List ℚ) (t : ℕ) (d : PdFloat) (ht : t < s.length) :
    (s.map PdFloat.num).getD t d = PdFloat.num (s.getD t 0) := by
  have h1 : s[t]? = some s[t] := List.getElem?_eq_getElem ht
  rw [List.getD_eq_getElem?_getD, List.getElem?_map, h1,
    List.getD_eq_getElem?_getD, h1]
  rfl

/-- Claim C3, amended: on an entity series with no missing values (sorted by
month), the YoY column is computed positionally by `pct_change(12)`: the first
12 positions are missing, and at position `t ≥ 12` with a nonzero value 12
positions earlier the column holds `value[t]/value[t-12] - 1`.  (When the
series is additionally month-dense, position `t - 12` is the same month one
year earlier, which is the case the claim describes.  A zero divisor yields an
infinity, not a missing value — see the counterexample — and missing values
would first be forward-filled.) -/
theorem pct12_positional (s : List ℚ) (t : ℕ) (ht : t < s.length) :
    (t < 12 → (pct_change_12 (s.map PdFloat.num)).getD t .nan = .nan) ∧
    (12 ≤ t → s.getD (t - 12) 0 ≠ 0 →
      (pct_change_12 (s.map PdFloat.num)).getD t .nan =
        .num (s.getD t 0 / s.getD (t - 12) 0 - 1)) := by
  have hnn : ∀ x ∈ s.map PdFloat.num, x ≠ PdFloat.nan := by
    intro x hx
    rw [List.mem_map] at hx
    obtain ⟨q, _, rfl⟩ := hx
    exact fun hc => PdFloat.noConfusion hc
  have hf : ffill (s.map PdFloat.num) = s.map PdFloat.num := ffillFrom_of_no_nan _ _ hnn
  have hlen : (s.map PdFloat.num).length = s.length := List.length_map s PdFloat.num
  have hgd : (pct_change_12 (s.map PdFloat.num)).getD t .nan =
      pdSubOne (pdDiv ((s.map PdFloat.num).getD t .nan)
        (if t < 12 then .nan else (s.map PdFloat.num).getD (t - 12) .nan)) := by
    unfold pct_change_12
    rw [hf, hlen, getD_range_map _ s.length t _ ht]
  constructor
  · intro h12
    rw [hgd, if_pos h12, getD_map_num s t _ ht]
    rfl
  · intro h12 hnz
    have ht2 : t - 12 < s.length := lt_of_le_of_lt (Nat.sub_le t 12) ht
    rw [hgd, if_neg (not_lt.2 h12), getD_map_num s t _ ht, getD_map_num s (t - 12) _ ht2]
    show pdSubOne (pdDiv (PdFloat.num (s.getD t 0)) (PdFloat.num (s.getD (t - 12) 0))) = _
    rw [pdDiv]
    rw [if_neg hnz]
    rfl

/-- Witness for C3: on a constant series of thirteen ones, position 5 of the
YoY column is missing. -/
theorem pct12_positional_witness :
    (pct_change_12 ((List.replicate 13 (1 : ℚ)).map PdFloat.num)).getD 5 .nan = .nan :=
  (pct12_positional (List.replicate 13 (1 : ℚ)) 5 (by norm_num)).1 (by norm_num)

/-! ## Claim C10 -/

theorem getD_zip_osub (a : List (Option ℚ)) :
    ∀ (b : List (Option ℚ)) (t : ℕ), a.length = b.length →
      ((a.zip b).map fun p => osub p.1 p.2).getD t none =
        osub (a.getD t none) (b.getD t none) := by
  induction a with
  | nil =>
    intro b t hb
    cases b with
    | nil => cases t <;> rfl
    | cons y ys => simp at hb
  | cons x xs ih =>
    intro b t hb
    cases b with
    | nil => simp at hb
    | cons y ys =>
      cases t with
      | zero => rfl
      | succ n => exact ih ys n (by simpa using hb)

/-- Claim C10: in the main FX table, for every position the 差额 column equals
结汇 − 售汇 recomputed from the deduplicated aligned series (NaN-propagating);
`load_bank_fx` returns an absent result when any of the three main labels is
missing; and the parsed values of the 三、差额 row never influence the output:
replacing that row's data cells arbitrarily leaves the result unchanged. -/
theorem main_balance_recomputed :
    (∀ sheet : Sheet,
      (findRowByIdx sheet "一、结汇" = none ∨ findRowByIdx sheet "二、售汇" = none ∨
        findRowByIdx sheet "三、差额" = none) → load_bank_fx_main sheet = none) ∧
    (∀ (sheet : Sheet) (mf : MainFrame), load_bank_fx_main sheet = some mf →
      ∀ t : ℕ, mf.bal.getD t none = osub (mf.settle.getD t none) (mf.sale.getD t none)) ∧
    (∀ (sheet : Sheet) (f : List Cell → List Cell),
      load_bank_fx_main (mutateBal f sheet) = load_bank_fx_main sheet) := by
  refine ⟨?_, ?_, ?_⟩
  · intro sheet h
    unfold load_bank_fx_main
    rcases h with h | h | h
    · rw [h]
    · rw [h]
      cases findRowByIdx sheet "一、结汇" <;> rfl
    · rw [h]
      cases findRowByIdx sheet "一、结汇" <;> cases findRowByIdx sheet "二、售汇" <;> rfl
  · intro sheet mf hmf t
    unfold load_bank_fx_main at hmf
    rcases hf1 : findRowByIdx sheet "一、结汇" with _ | rs <;> rw [hf1] at hmf
    · exact Option.noConfusion hmf
    rcases hf2 : findRowByIdx sheet "二、售汇" with _ | rl <;> rw [hf2] at hmf
    · exact Option.noConfusion hmf
    rcases hf3 : findRowByIdx sheet "三、差额" with _ | rb <;> rw [hf3] at hmf
    · exact Option.noConfusion hmf
    have hmf2 := Option.some.inj hmf
    subst hmf2
    apply getD_zip_osub
    rw [List.length_map, List.length_map]
  · intro sheet f
    have hidx : ∀ r : XRow,
        (if r.idx = "三、差额" then { r with cells := f r.cells } else r).idx = r.idx := by
      intro r
      split <;> rfl
    have hfind : ∀ lbl : String, findRowByIdx (mutateBal f sheet) lbl =
        (findRowByIdx sheet lbl).map fun r =>
          if r.idx = "三、差额" then { r with cells := f r.cells } else r := by
      intro lbl
      unfold findRowByIdx mutateBal
      rw [List.find?_map]
      have hp : ((fun r : XRow => decide (r.idx = lbl)) ∘ fun r : XRow =>
          if r.idx = "三、差额" then { r with cells := f r.cells } else r) =
          fun r : XRow => decide (r.idx = lbl) := by
        funext r
        exact congrArg (fun s => decide (s = lbl)) (hidx r)
      rw [hp]
    unfold load_bank_fx_main
    rw [hfind "一、结汇", hfind "二、售汇", hfind "三、差额"]
    rcases hf1 : findRowByIdx sheet "一、结汇" with _ | rs
    · rfl
    have hrs : rs.idx = "一、结汇" := by
      have := List.find?_some hf1
      simpa using this
    have hgrs : (if rs.idx = "三、差额" then { rs with cells := f rs.cells } else rs) = rs := by
      rw [hrs]
      rfl
    rcases hf2 : findRowByIdx sheet "二、售汇" with _ | rl
    · rfl
    have hrl : rl.idx = "二、售汇" := by
      have := List.find?_some hf2
      simpa using this
    have hgrl : (if rl.idx = "三、差额" then { rl with cells := f rl.cells } else rl) = rl := by
      rw [hrl]
      rfl
    rcases hf3 : findRowByIdx sheet "三、差额" with _ | rb
    · rfl
    · rw [Option.map_some', Option.map_some', Option.map_some', hgrs, hgrl]
      rfl

/-- Witness for C10: an empty sheet has none of the three labels, so the main
table is absent. -/
theorem main_balance_recomputed_witness :
    load_bank_fx_main { cols := [], rows := [] } = none :=
  main_balance_recomputed.1 { cols := [], rows := [] } (Or.inl rfl)

/-! ## Claims C1 and C9: properties of `_normalize_series` -/

theorem last_val_isSome_of_mem_keys (l : List (ℤ × ℚ)) (m : ℤ)
    (h : m ∈ l.map Prod.fst) : (last_val l m).isSome := by
  rw [List.mem_map] at h
  obtain ⟨p, hp, rfl⟩ := h
  unfold last_val
  rw [List.getLast?_isSome]
  intro hc
  rw [List.map_eq_nil_iff, List.filter_eq_nil_iff] at hc
  have := hc p hp
  simp at this

theorem filterMap_lastVal_keys (l : List (ℤ × ℚ)) :
    ∀ ms : List ℤ, (∀ m ∈ ms, (last_val l m).isSome) →
      ((ms.filterMap fun m => (last_val l m).map fun q => (m, q)).map Prod.fst) = ms := by
  intro ms
  induction ms with
  | nil => intro _; rfl
  | cons m ms ih =>
    intro h
    have hm := h m (List.mem_cons_self m ms)
    rw [Option.isSome_iff_exists] at hm
    obtain ⟨q, hq⟩ := hm
    rw [List.filterMap_cons, hq]
    simp only [Option.map_some']
    rw [List.map_cons]
    rw [ih fun x hx => h x (List.mem_cons_of_mem m hx)]

theorem dedup_keys_eq (l : List (ℤ × ℚ)) :
    (dedup_last_sorted l).map Prod.fst = sortByKey (fun m : ℤ => m) (months_of l) := by
  unfold dedup_last_sorted
  apply filterMap_lastVal_keys
  intro m hm
  rw [sortByKey_mem] at hm
  unfold months_of at hm
  rw [List.mem_dedup] at hm
  exact last_val_isSome_of_mem_keys l m hm

theorem dedup_keys_sorted_lt (l : List (ℤ × ℚ)) :
    List.Sorted (· < ·) ((dedup_last_sorted l).map Prod.fst) := by
  rw [dedup_keys_eq]
  have hs : List.Sorted (· ≤ ·) (sortByKey (fun m : ℤ => m) (months_of l)) :=
    sortByKey_sorted _ _
  have hnd : (sortByKey (fun m : ℤ => m) (months_of l)).Nodup :=
    ((sortByKey_perm _ _).nodup_iff).2 (List.nodup_dedup _)
  exact hs.lt_of_le hnd

theorem mem_dedup_last_sorted (l : List (ℤ × ℚ)) (m : ℤ) (q : ℚ) :
    (m, q) ∈ dedup_last_sorted l ↔ last_val l m = some q := by
  unfold dedup_last_sorted
  rw [List.mem_filterMap]
  constructor
  · rintro ⟨m2, hm2, hmap⟩
    rw [Option.map_eq_some'] at hmap
    obtain ⟨q2, hq2, heq⟩ := hmap
    cases heq
    exact hq2
  · intro h
    refine ⟨m, ?_, by rw [h]; rfl⟩
    rw [sortByKey_mem]
    unfold months_of
    rw [List.mem_dedup, List.mem_map]
    have hne : (l.filter fun p => p.1 = m) ≠ [] := by
      intro hc
      unfold last_val at h
      rw [hc] at h
      exact Option.noConfusion h
    obtain ⟨p, hp⟩ := List.exists_mem_of_ne_nil _ hne
    have hp1 := List.mem_filter.1 hp
    exact ⟨p, hp1.1, by simpa using hp1.2⟩

theorem clean_pairs_map_some (r : List (ℤ × ℚ)) :
    clean_pairs (r.map fun p => (some p.1, some p.2)) = r := by
  induction r with
  | nil => rfl
  | cons p t ih =>
    show clean_pairs ((some p.1, some p.2) :: t.map fun p => (some p.1, some p.2)) = p :: t
    unfold clean_pairs
    rw [List.filterMap_cons]
    show (p.1, p.2) :: clean_pairs (t.map fun p => (some p.1, some p.2)) = p :: t
    rw [ih]

theorem filterMap_lastVal_self :
    ∀ r : List (ℤ × ℚ), (r.map Prod.fst).Nodup →
      ((r.map Prod.fst).filterMap fun m => (last_val r m).map fun q => (m, q)) = r := by
  intro r
  induction r with
  | nil => intro _; rfl
  | cons p t ih =>
    intro hnd
    rw [List.map_cons] at hnd
    have hpm : p.1 ∉ t.map Prod.fst := (List.nodup_cons.1 hnd).1
    have htnd : (t.map Prod.fst).Nodup := (List.nodup_cons.1 hnd).2
    rw [List.map_cons, List.filterMap_cons]
    have hlv : last_val (p :: t) p.1 = some p.2 := by
      unfold last_val
      rw [List.filter_cons_of_pos (by simp)]
      have hft : t.filter (fun x => x.1 = p.1) = [] := by
        rw [List.filter_eq_nil_iff]
        intro a ha
        simp only [decide_eq_true_eq]
        intro hc
        exact hpm (List.mem_map.2 ⟨a, ha, hc⟩)
      rw [hft]
      rfl
    rw [hlv]
    simp only [Option.map_some']
    have hcongr :
        (t.map Prod.fst).filterMap (fun m => (last_val (p :: t) m).map fun q => (m, q)) =
          (t.map Prod.fst).filterMap fun m => (last_val t m).map fun q => (m, q) := by
      apply List.filterMap_congr
      intro m hm
      have hne : ¬ (p.1 = m) := fun hc => hpm (hc ▸ hm)
      unfold last_val
      rw [List.filter_cons_of_neg (by simpa using hne)]
    rw [hcongr, ih htnd]

theorem dedup_last_sorted_eq_self (r : List (ℤ × ℚ)) (hnd : (r.map Prod.fst).Nodup)
    (hs : List.Sorted (· ≤ ·) (r.map Prod.fst)) : dedup_last_sorted r = r := by
  unfold dedup_last_sorted
  have h1 : months_of r = r.map Prod.fst := by
    unfold months_of
    exact List.dedup_eq_self.2 hnd
  rw [h1]
  have h2 : sortByKey (fun m : ℤ => m) (r.map Prod.fst) = r.map Prod.fst :=
    sortByKey_eq_of_sorted hs
  rw [h2]
  exact filterMap_lastVal_self r hnd

/-- Claim C1, amended: the deduplication primitive of the FX series
(`_normalize_series`, reused by the component and forward tables) produces a
series whose month keys are strictly increasing (unique, ascending month-end
timestamps), whose entries are exactly the last surviving (non-null,
dated) observation of each month in original column order, and on the raw
observations [117, NaN] for one month it keeps 117.  (The customs panel,
by contrast, is finalized without any deduplication — see the
counterexample.) -/
theorem normalize_series_dedup :
    (∀ s : List (Option ℤ × Option ℚ),
      List.Sorted (· < ·) ((normalize_series s).map Prod.fst) ∧
      ∀ m q, ((m, q) ∈ normalize_series s ↔ last_val (clean_pairs s) m = some q)) ∧
    normalize_series
        [(some (month_key 2023 12), some 117), (some (month_key 2023 12), none)] =
      [(month_key 2023 12, 117)] := by
  constructor
  · intro s
    exact ⟨dedup_keys_sorted_lt _, fun m q => mem_dedup_last_sorted _ m q⟩
  · decide

/-- Claim C9: the temporal deduplicator is idempotent — feeding a series it
produced (whose labels are exactly its month-end keys and whose values are all
present) back through `_normalize_series` returns it unchanged. -/
theorem normalize_series_idempotent (s : List (Option ℤ × Option ℚ)) :
    normalize_series ((normalize_series s).map fun p => (some p.1, some p.2)) =
      normalize_series s := by
  show dedup_last_sorted
      (clean_pairs ((normalize_series s).map fun p => (some p.1, some p.2))) =
    normalize_series s
  rw [clean_pairs_map_some]
  have hlt := dedup_keys_sorted_lt (clean_pairs s)
  exact dedup_last_sorted_eq_self _ (List.Pairwise.imp (fun h => ne_of_lt h) hlt)
    (List.Pairwise.imp (fun h => le_of_lt h) hlt)

/-! ## Claim C8 -/

theorem keyTop_injective : Function.Injective keyTop := by
  intro a b h
  cases a with
  | none =>
    cases b with
    | none => rfl
    | some y => exact absurd h (by simp [keyTop])
  | some x =>
    cases b with
    | none => exact absurd h (by simp [keyTop])
    | some y =>
      have : (x : WithTop ℤ) = (y : WithTop ℤ) := h
      rw [WithTop.coe_eq_coe] at this
      rw [this]

theorem exceptMap_ok_inv {ε α β : Type} (g : α → β) (x : Except ε α) (b : β)
    (h : x.map g = .ok b) : ∃ a, x = .ok a ∧ g a = b := by
  cases x with
  | error e => exact Except.noConfusion h
  | ok a =>
    refine ⟨a, rfl, ?_⟩
    exact Except.ok.inj h

/-- The month axis produced by the conditional dedup followed by `sort_index`
is strictly increasing under the NaT-last key: when the axis had duplicates,
`groupby` leaves sorted unique `some` keys; when it had none, sorting plus the
key-uniqueness gives strictness directly. -/
theorem tri_dedup_sorted (entries : List (Option ℤ × List (Option ℚ))) (n : ℕ) :
    List.Pairwise (fun a b => keyTop a.1 < keyTop b.1)
      (triSortIdx (triDedup entries n)) := by
  unfold triDedup
  split
  case isTrue h =>
    have hsort : List.Sorted (· ≤ ·)
        (sortByKey (fun m : ℤ => m) ((entries.filterMap Prod.fst).dedup)) :=
      sortByKey_sorted _ _
    have hnd : (sortByKey (fun m : ℤ => m) ((entries.filterMap Prod.fst).dedup)).Nodup :=
      (sortByKey_perm _ _).nodup_iff.2 (List.nodup_dedup _)
    have hlt := hsort.lt_of_le hnd
    have hpair : List.Pairwise (fun a b => keyTop a.1 < keyTop b.1)
        ((sortByKey (fun m : ℤ => m) ((entries.filterMap Prod.fst).dedup)).map fun m =>
          (some m, (List.range n).map fun j => lastColVal entries m j)) := by
      rw [List.pairwise_map]
      exact hlt.imp fun hab => WithTop.coe_lt_coe.2 hab
    have hle : List.Sorted (fun a b => keyTop a.1 ≤ keyTop b.1)
        ((sortByKey (fun m : ℤ => m) ((entries.filterMap Prod.fst).dedup)).map fun m =>
          (some m, (List.range n).map fun j => lastColVal entries m j)) :=
      hpair.imp fun hab => le_of_lt hab
    unfold triSortIdx
    rw [sortByKey_eq_of_sorted hle]
    exact hpair
  case isFalse h =>
    have hnd : (entries.map Prod.fst).Nodup := by
      by_cases hnil : entries = []
      · subst hnil
        exact List.Pairwise.nil
      · by_contra hc
        exact h ⟨hnil, hc⟩
    have hs : List.Sorted (fun a b => keyTop a.1 ≤ keyTop b.1) (triSortIdx entries) :=
      sortByKey_sorted _ _
    have hnd2 : ((triSortIdx entries).map Prod.fst).Nodup :=
      ((sortByKey_perm _ _).map Prod.fst).nodup_iff.2 hnd
    unfold List.Nodup at hnd2
    rw [List.pairwise_map] at hnd2
    unfold List.Sorted at hs
    exact (hs.and hnd2).imp fun hab =>
      lt_of_le_of_ne hab.1 fun hc => hab.2 (keyTop_injective hc)

theorem getD3_eq (l : List (Option ℚ)) (h : l.length = 3) :
    [l.getD 0 none, l.getD 1 none, l.getD 2 none] = l := by
  cases l with
  | nil =>
    simp only [List.length_nil] at h
    omega
  | cons a l1 =>
    cases l1 with
    | nil =>
      simp only [List.length_cons, List.length_nil] at h
      omega
    | cons b l2 =>
      cases l2 with
      | nil =>
        simp only [List.length_cons, List.length_nil] at h
        omega
      | cons c l3 =>
        cases l3 with
        | nil => rfl
        | cons d l4 =>
          simp only [List.length_cons] at h
          omega

theorem map_id_of_forall {α : Type} (l : List α) (g : α → α) (h : ∀ e ∈ l, g e = e) :
    l.map g = l := by
  induction l with
  | nil => rfl
  | cons a t ih =>
    rw [List.map_cons, h a (List.mem_cons_self a t),
      ih fun e he => h e (List.mem_cons_of_mem a he)]

/-- Every entry of the deduplicated, sorted transpose of a 3-row block carries
exactly three column values. -/
theorem tri_values_length (sheet : Sheet) (i : ℕ)
    (hblk : (triBlockAt sheet i).length = 3) :
    ∀ e ∈ triSortIdx (triDedup (triCleaned sheet i) 3), e.2.length = 3 := by
  intro e he
  have he2 : e ∈ triDedup (triCleaned sheet i) 3 := (sortByKey_perm _ _).subset he
  unfold triDedup at he2
  split at he2
  · rw [List.mem_map] at he2
    obtain ⟨m, _, rfl⟩ := he2
    simp
  · have he3 : e ∈ triEntries sheet (triBlockAt sheet i) := by
      unfold triCleaned dropAllNone at he2
      exact (List.mem_filter.1 he2).1
    unfold triEntries at he3
    rw [List.mem_map] at he3
    obtain ⟨j, _, rfl⟩ := he3
    simp [hblk]

/-- Selecting the columns 结汇/售汇/差额 by name from a frame whose columns
are, in order, exactly those names is the identity on the rows. -/
theorem selectTriCols_id (rows : List (Option ℤ × List (Option ℚ)))
    (hlen : ∀ e ∈ rows, e.2.length = 3) :
    selectTriCols ["结汇", "售汇", "差额"] rows = .ok rows := by
  unfold selectTriCols
  rw [show (["结汇", "售汇", "差额"].mapM fun w =>
      (["结汇", "售汇", "差额"] : List String).indexOf? w) = some [0, 1, 2] from rfl]
  show Except.ok (rows.map fun e => (e.1, [0, 1, 2].map fun p => e.2.getD p none)) =
    .ok rows
  congr 1
  apply map_id_of_forall
  intro e he
  show (e.1, [e.2.getD 0 none, e.2.getD 1 none, e.2.getD 2 none]) = e
  rw [getD3_eq e.2 (hlen e he)]

/-- Claim C8, amended: the FX forward-table extractor.  When the section label
is absent from the sheet index, the caller receives the schema-stable empty
frame (columns 结汇/售汇/差额, no rows) and no error is raised.  Any returned
frame has exactly that fixed column triad and a deduplicated month axis sorted
strictly ascending (month-end keys, NaT last).  The triad itself is the three
rows *starting at* the labeled row (`raw.iloc[i : i + 3]`; the section-label
row carries the 结汇 data) — not the three rows after it (see the
counterexample): whenever those rows are labeled 结汇/售汇/差额, the output
rows are exactly the transpose of that block, coerced to numeric, all-NaN
columns dropped, collapsed per canonical month (last non-null value) when the
axis has duplicates, and sorted. -/
theorem tri_df_schema_stable (sheet : Sheet) (lbl : String) :
    (sheet.rows.findIdx? (fun r => r.idx = lbl) = none →
      fwdTri sheet lbl = .ok emptyTriFrame) ∧
    (∀ t, tri_df sheet lbl = .ok (some t) → t.cols = ["结汇", "售汇", "差额"]) ∧
    (∀ t, tri_df sheet lbl = .ok (some t) →
      List.Pairwise (fun a b => keyTop a.1 < keyTop b.1) t.rows) ∧
    (∀ i, sheet.rows.findIdx? (fun r => r.idx = lbl) = some i →
      (triBlockAt sheet i).map XRow.label = ["结汇", "售汇", "差额"] →
      tri_df sheet lbl = .ok (some
        { cols := ["结汇", "售汇", "差额"]
          rows := triSortIdx (triDedup (triCleaned sheet i) 3) })) := by
  refine ⟨?_, ?_, ?_, ?_⟩
  · intro h
    unfold fwdTri tri_df
    rw [h]
    rfl
  · intro t h
    unfold tri_df at h
    rcases hidx : sheet.rows.findIdx? (fun r => r.idx = lbl) with _ | i
    · rw [hidx] at h
      exact Option.noConfusion (Except.ok.inj h)
    · rw [hidx] at h
      obtain ⟨rs, _, hg⟩ := exceptMap_ok_inv _ _ _ h
      have ht := Option.some.inj hg
      rw [← ht]
  · intro t h
    unfold tri_df at h
    rcases hidx : sheet.rows.findIdx? (fun r => r.idx = lbl) with _ | i
    · rw [hidx] at h
      exact Option.noConfusion (Except.ok.inj h)
    · rw [hidx] at h
      obtain ⟨rs, hsel, hg⟩ := exceptMap_ok_inv _ _ _ h
      have ht := Option.some.inj hg
      rw [← ht]
      show List.Pairwise (fun a b => keyTop a.1 < keyTop b.1) rs
      unfold selectTriCols at hsel
      split at hsel
      · have hrs := Except.ok.inj hsel
        rw [← hrs, List.pairwise_map]
        exact tri_dedup_sorted _ _
      · exact Except.noConfusion hsel
  · intro i hidx hlbl
    have hblk : (triBlockAt sheet i).length = 3 := by
      have hc := congrArg List.length hlbl
      simpa using hc
    unfold tri_df
    rw [hidx]
    show ((selectTriCols ((triBlockAt sheet i).map XRow.label)
        (triSortIdx (triDedup (triCleaned sheet i)
          ((triBlockAt sheet i).map XRow.label).length))).map fun rs =>
        some ({ cols := ["结汇", "售汇", "差额"], rows := rs } : TriFrame)) =
      .ok (some
        ({ cols := ["结汇", "售汇", "差额"]
           rows := triSortIdx (triDedup (triCleaned sheet i) 3) } : TriFrame))
    rw [hlbl]
    rw [show (["结汇", "售汇", "差额"] : List String).length = 3 from rfl]
    rw [selectTriCols_id (triSortIdx (triDedup (triCleaned sheet i) 3))
      (tri_values_length sheet i hblk)]
    rfl

/-- Witness for C8: a sheet with no rows lacks the forward section label, and
the caller gets the empty schema-stable frame. -/
theorem tri_df_schema_stable_witness :
    fwdTri { cols := [], rows := [] } "四、远期结售汇签约额" = .ok emptyTriFrame :=
  (tri_df_schema_stable { cols := [], rows := [] } "四、远期结售汇签约额").1 rfl

/-- Claim C8 counterexample: the extracted triad starts AT the labeled row
(`raw.iloc[i : i + 3]`), not at the row after it.  On `exTriSheet` the label
sits at row index 0; the code's block carries the labels [结汇, 售汇, 差额]
and its values (10, 20, 30) — including the labeled row's own 10 in the 结汇
column — reach the output, while the three rows immediately following the
label (the claim's reading, `specTriBlockAfter`) carry the labels
[售汇, 差额, ""] and the values (20, 30, 99): they are a different block and
do not even form the 结汇/售汇/差额 triad. -/
theorem tri_rows_start_at_label_counterexample :
    exTriSheet.rows.findIdx? (fun r => r.idx = "四、远期结售汇签约额") = some 0 ∧
    (triBlockAt exTriSheet 0).map XRow.label = ["结汇", "售汇", "差额"] ∧
    (specTriBlockAfter exTriSheet 0).map XRow.label = ["售汇", "差额", ""] ∧
    triBlockAt exTriSheet 0 ≠ specTriBlockAfter exTriSheet 0 ∧
    tri_df exTriSheet "四、远期结售汇签约额" =
      .ok (some
        { cols := ["结汇", "售汇", "差额"]
          rows := [(some (month_key 2024 1), [some 10, some 20, some 30])] }) :=
  ⟨by decide, by decide, by decide, by decide, by decide⟩

/-! ## Claim C7 -/

theorem ymMaxFrom_le (ks : List (ℤ × ℤ)) :
    ∀ d : ℤ × ℤ, ymKey d ≤ ymKey (ymMaxFrom d ks) ∧
      ∀ k ∈ ks, ymKey k ≤ ymKey (ymMaxFrom d ks) := by
  induction ks with
  | nil =>
    intro d
    exact ⟨le_refl _, fun k hk => absurd hk (List.not_mem_nil k)⟩
  | cons k ks ih =>
    intro d
    rw [ymMaxFrom]
    have hdd2 : ymKey d ≤ ymKey (if ymKey d ≤ ymKey k then k else d) := by
      split
      · assumption
      · exact le_refl _
    have hkd2 : ymKey k ≤ ymKey (if ymKey d ≤ ymKey k then k else d) := by
      split
      · exact le_refl _
      · exact le_of_not_le (by assumption)
    obtain ⟨h1, h2⟩ := ih (if ymKey d ≤ ymKey k then k else d)
    refine ⟨le_trans hdd2 h1, ?_⟩
    intro x hx
    rcases List.mem_cons.1 hx with rfl | hx2
    · exact le_trans hkd2 h1
    · exact h2 x hx2

theorem length_le_of_nodup_bounded (l : List ℤ) (m : ℤ) (hnd : l.Nodup)
    (hb : ∀ x ∈ l, 1 ≤ x ∧ x ≤ m) : l.length ≤ m.toNat := by
  have hsub : l.toFinset ⊆ Finset.Icc 1 m := by
    intro x hx
    rw [List.mem_toFinset] at hx
    rw [Finset.mem_Icc]
    exact hb x hx
  have hcard := Finset.card_le_card hsub
  rw [List.toFinset_card_of_nodup hnd, Int.card_Icc] at hcard
  simpa using hcard

/-- Claim C7, amended: for a non-empty series (observations `k0 :: rest` after
`dropna`, month keys unique and months in 1..12), `ytd_sum_and_yoy` returns
the positional windows: the YTD sum and both YoY operands are the first
`month(last)` observations of the respective year in date order (`iloc[:month]`),
with the YoY absent exactly when the previous year is absent from the index or
its positional window sums to zero.  The second conjunct is the part the claim
gets right for the current year: because every current-year observation is
dated at or before the latest month and keys are unique, the positional window
equals the whole current-year (January-through-latest) sum.  For the previous
year the window stays positional — see the counterexample. -/
theorem ytd_sum_positional (s : List ((ℤ × ℤ) × Option ℚ)) (k0 : (ℤ × ℤ) × ℚ)
    (rest : List ((ℤ × ℤ) × ℚ))
    (hobs : presentObs s = k0 :: rest)
    (hnd : ((k0 :: rest).map Prod.fst).Nodup)
    (hmr : ∀ k ∈ (k0 :: rest).map Prod.fst, 1 ≤ k.2 ∧ k.2 ≤ 12) :
    ytd_sum_and_yoy s = .ok (some
      (windowSum (sortObs (k0 :: rest)) (lastObsKey k0 rest).1 (lastObsKey k0 rest).2,
        (if ((k0 :: rest).any fun p => p.1.1 = (lastObsKey k0 rest).1 - 1) ∧
            windowSum (sortObs (k0 :: rest)) ((lastObsKey k0 rest).1 - 1)
              (lastObsKey k0 rest).2 ≠ 0 then
          some (windowSum (sortObs (k0 :: rest)) (lastObsKey k0 rest).1
                (lastObsKey k0 rest).2 /
              windowSum (sortObs (k0 :: rest)) ((lastObsKey k0 rest).1 - 1)
                (lastObsKey k0 rest).2 - 1)
        else none),
        lastObsKey k0 rest)) ∧
    windowSum (sortObs (k0 :: rest)) (lastObsKey k0 rest).1 (lastObsKey k0 rest).2 =
      (((k0 :: rest).filter fun p => p.1.1 = (lastObsKey k0 rest).1).map Prod.snd).sum := by
  constructor
  · have hsne : ¬ (s.isEmpty = true) := by
      rw [List.isEmpty_iff]
      intro hc
      rw [hc] at hobs
      exact List.noConfusion hobs
    unfold ytd_sum_and_yoy
    rw [if_neg hsne, hobs]
  · have hperm : (sortObs (k0 :: rest)).Perm (k0 :: rest) := sortByKey_perm _ _
    have hpf : ((sortObs (k0 :: rest)).filter fun p =>
          p.1.1 = (lastObsKey k0 rest).1).Perm
        ((k0 :: rest).filter fun p => p.1.1 = (lastObsKey k0 rest).1) :=
      hperm.filter _
    have hkey : ∀ k ∈ ((sortObs (k0 :: rest)).filter fun p =>
          p.1.1 = (lastObsKey k0 rest).1).map Prod.fst,
        k.1 = (lastObsKey k0 rest).1 ∧ 1 ≤ k.2 ∧ k.2 ≤ (lastObsKey k0 rest).2 := by
      intro k hk
      rw [List.mem_map] at hk
      obtain ⟨p, hp, rfl⟩ := hk
      have hpF := List.mem_filter.1 hp
      have hyr : p.1.1 = (lastObsKey k0 rest).1 := by simpa using hpF.2
      have hpmem : p.1 ∈ (k0 :: rest).map Prod.fst :=
        List.mem_map.2 ⟨p, hperm.subset hpF.1, rfl⟩
      have hb := hmr p.1 hpmem
      have hmax : ymKey p.1 ≤ ymKey (lastObsKey k0 rest) := by
        rw [List.map_cons] at hpmem
        rcases List.mem_cons.1 hpmem with h | h
        · rw [h]
          exact (ymMaxFrom_le (rest.map Prod.fst) k0.1).1
        · exact (ymMaxFrom_le (rest.map Prod.fst) k0.1).2 p.1 h
      have hm2 : p.1.2 ≤ (lastObsKey k0 rest).2 := by
        rw [ymKey, ymKey, Prod.Lex.le_iff] at hmax
        rcases hmax with hlt | ⟨_, hle⟩
        · rw [hyr] at hlt
          exact absurd hlt (lt_irrefl _)
        · exact hle
      exact ⟨hyr, hb.1, hm2⟩
    have hlen : ((sortObs (k0 :: rest)).filter fun p =>
        p.1.1 = (lastObsKey k0 rest).1).length ≤ (lastObsKey k0 rest).2.toNat := by
      have hndS2 : ((sortObs (k0 :: rest)).map Prod.fst).Nodup :=
        (hperm.map Prod.fst).nodup_iff.2 hnd
      have hsubl : (((sortObs (k0 :: rest)).filter fun p =>
            p.1.1 = (lastObsKey k0 rest).1).map Prod.fst).Sublist
          ((sortObs (k0 :: rest)).map Prod.fst) :=
        (List.filter_sublist _).map _
      have hndF := hsubl.nodup hndS2
      have hmonths : ((((sortObs (k0 :: rest)).filter fun p =>
          p.1.1 = (lastObsKey k0 rest).1).map Prod.fst).map Prod.snd).Nodup := by
        apply List.Nodup.map_on ?_ hndF
        intro x hx y hy hxy
        exact Prod.ext ((hkey x hx).1.trans (hkey y hy).1.symm) hxy
      have hbound : ∀ x ∈ (((sortObs (k0 :: rest)).filter fun p =>
          p.1.1 = (lastObsKey k0 rest).1).map Prod.fst).map Prod.snd,
          1 ≤ x ∧ x ≤ (lastObsKey k0 rest).2 := by
        intro x hx
        rw [List.mem_map] at hx
        obtain ⟨k, hk, rfl⟩ := hx
        exact ⟨(hkey k hk).2.1, (hkey k hk).2.2⟩
      have hple := length_le_of_nodup_bounded _ _ hmonths hbound
      rwa [List.length_map, List.length_map] at hple
    unfold windowSum
    rw [List.take_of_length_le hlen]
    exact (hpf.map Prod.snd).sum_eq

/-- Witness for C7: a gap-free series over 2022-2023 gets YTD 6 and YoY 5. -/
theorem ytd_sum_positional_witness :
    ytd_sum_and_yoy exYtdDense = .ok (some (6, some 5, (2023, 2))) := by
  have h := (ytd_sum_positional exYtdDense ((2023, 1), 2) [((2022, 1), 1), ((2023, 2), 4)]
    rfl (by decide) (by decide)).1
  rw [h]
  have hL : lastObsKey (((2023, 1) : ℤ × ℤ), (2 : ℚ)) [((2022, 1), 1), ((2023, 2), 4)] =
      (2023, 2) := by decide
  have hsort : sortObs ((((2023, 1) : ℤ × ℤ), (2 : ℚ)) :: [((2022, 1), 1), ((2023, 2), 4)]) =
      [((2022, 1), 1), ((2023, 1), 2), ((2023, 2), 4)] := by decide
  rw [hL, hsort]
  norm_num [windowSum, List.filter_cons]
  refine ⟨?_, ?_, ?_⟩
  · show ((2 : ℚ) + (4 + 0)) = 6
    norm_num
  · show ¬ ((1 : ℚ) + 0) = 0
    norm_num
  · show ((2 : ℚ) + (4 + 0)) / ((1 : ℚ) + 0) - 1 = 5
    norm_num

/-- Claim C7 counterexample: 2022 runs February through April, 2023 January
through March.  The positional previous-year window (`iloc[:3]`) sums
February + March + April 2022 = 102, so the code returns YoY 3/102 − 1 =
−33/34; the calendar January-through-March window of the spec sums to 2 and
would give 3/2 − 1 = 1/2 ≠ −33/34. -/
theorem ytd_window_counterexample :
    ytd_sum_and_yoy exYtdGap = .ok (some (3, some (-(33/34) : ℚ), (2023, 3))) ∧
    specCalendarWindowSum exYtdGap 2022 3 = 2 ∧
    ((3 : ℚ) / 2 - 1 = 1 / 2) ∧
    ((-(33/34) : ℚ) ≠ 1 / 2) := by
  refine ⟨?_, ?_, by norm_num, by norm_num⟩
  · have h : ytd_sum_and_yoy exYtdGap = .ok (some
        (windowSum (sortObs ((((2022, 2) : ℤ × ℤ), (1 : ℚ)) ::
            [((2022, 3), 1), ((2022, 4), 100), ((2023, 1), 1), ((2023, 2), 1), ((2023, 3), 1)]))
          (lastObsKey (((2022, 2) : ℤ × ℤ), (1 : ℚ))
            [((2022, 3), 1), ((2022, 4), 100), ((2023, 1), 1), ((2023, 2), 1), ((2023, 3), 1)]).1
          (lastObsKey (((2022, 2) : ℤ × ℤ), (1 : ℚ))
            [((2022, 3), 1), ((2022, 4), 100), ((2023, 1), 1), ((2023, 2), 1), ((2023, 3), 1)]).2,
          (if (((((2022, 2) : ℤ × ℤ), (1 : ℚ)) ::
              [((2022, 3), 1), ((2022, 4), 100), ((2023, 1), 1), ((2023, 2), 1),
                ((2023, 3), 1)]).any fun p => p.1.1 =
                  (lastObsKey (((2022, 2) : ℤ × ℤ), (1 : ℚ))
                    [((2022, 3), 1), ((2022, 4), 100), ((2023, 1), 1), ((2023, 2), 1),
                      ((2023, 3), 1)]).1 - 1) ∧
              windowSum (sortObs ((((2022, 2) : ℤ × ℤ), (1 : ℚ)) ::
                  [((2022, 3), 1), ((2022, 4), 100), ((2023, 1), 1), ((2023, 2), 1),
                    ((2023, 3), 1)]))
                ((lastObsKey (((2022, 2) : ℤ × ℤ), (1 : ℚ))
                  [((2022, 3), 1), ((2022, 4), 100), ((2023, 1), 1), ((2023, 2), 1),
                    ((2023, 3), 1)]).1 - 1)
                (lastObsKey (((2022, 2) : ℤ × ℤ), (1 : ℚ))
                  [((2022, 3), 1), ((2022, 4), 100), ((2023, 1), 1), ((2023, 2), 1),
                    ((2023, 3), 1)]).2 ≠ 0 then
            some (windowSum (sortObs ((((2022, 2) : ℤ × ℤ), (1 : ℚ)) ::
                  [((2022, 3), 1), ((2022, 4), 100), ((2023, 1), 1), ((2023, 2), 1),
                    ((2023, 3), 1)]))
                (lastObsKey (((2022, 2) : ℤ × ℤ), (1 : ℚ))
                  [((2022, 3), 1), ((2022, 4), 100), ((2023, 1), 1), ((2023, 2), 1),
                    ((2023, 3), 1)]).1
                (lastObsKey (((2022, 2) : ℤ × ℤ), (1 : ℚ))
                  [((2022, 3), 1), ((2022, 4), 100), ((2023, 1), 1), ((2023, 2), 1),
                    ((2023, 3), 1)]).2 /
              windowSum (sortObs ((((2022, 2) : ℤ × ℤ), (1 : ℚ)) ::
                  [((2022, 3), 1), ((2022, 4), 100), ((2023, 1), 1), ((2023, 2), 1),
                    ((2023, 3), 1)]))
                ((lastObsKey (((2022, 2) : ℤ × ℤ), (1 : ℚ))
                  [((2022, 3), 1), ((2022, 4), 100), ((2023, 1), 1), ((2023, 2), 1),
                    ((2023, 3), 1)]).1 - 1)
                (lastObsKey (((2022, 2) : ℤ × ℤ), (1 : ℚ))
                  [((2022, 3), 1), ((2022, 4), 100), ((2023, 1), 1), ((2023, 2), 1),
                    ((2023, 3), 1)]).2 - 1)
          else none),
          lastObsKey (((2022, 2) : ℤ × ℤ), (1 : ℚ))
            [((2022, 3), 1), ((2022, 4), 100), ((2023, 1), 1), ((2023, 2), 1),
              ((2023, 3), 1)])) := rfl
    rw [h]
    have hL : lastObsKey (((2022, 2) : ℤ × ℤ), (1 : ℚ))
        [((2022, 3), 1), ((2022, 4), 100), ((2023, 1), 1), ((2023, 2), 1), ((2023, 3), 1)] =
        (2023, 3) := by decide
    have hsort : sortObs ((((2022, 2) : ℤ × ℤ), (1 : ℚ)) ::
        [((2022, 3), 1), ((2022, 4), 100), ((2023, 1), 1), ((2023, 2), 1), ((2023, 3), 1)]) =
        (((2022, 2) : ℤ × ℤ), (1 : ℚ)) ::
        [((2022, 3), 1), ((2022, 4), 100), ((2023, 1), 1), ((2023, 2), 1), ((2023, 3), 1)] := by
      decide
    rw [hL, hsort]
    norm_num [windowSum, List.filter_cons]
    refine ⟨?_, ?_, ?_⟩
    · show ((1 : ℚ) + (1 + (1 + 0))) = 3
      norm_num
    · show ¬ ((1 : ℚ) + (1 + (100 + 0))) = 0
      norm_num
    · show ((1 : ℚ) + (1 + (1 + 0))) / ((1 : ℚ) + (1 + (100 + 0))) - 1 = -(33/34)
      norm_num
  · show ((1 : ℚ) + (1 + 0)) = 2
    norm_num

/-- Witness for C1: the worked example's entry is reachable through the
membership characterization. -/
theorem normalize_series_dedup_witness :
    (month_key 2023 12, (117 : ℚ)) ∈ normalize_series
      [(some (month_key 2023 12), some 117), (some (month_key 2023 12), none)] :=
  ((normalize_series_dedup.1
      [(some (month_key 2023 12), some 117), (some (month_key 2023 12), none)]).2
    (month_key 2023 12) 117).mpr (by decide)
